import Mathlib

/-!
# Verification of the aws-lambda-rie-gateway request/response translation

Shallow embedding of `src/main.rs` of `clearobject/aws-lambda-rie-gateway`:
an HTTP gateway that encodes each inbound HTTP request as an API-Gateway-v2
Lambda proxy-integration event, POSTs it to a Runtime Interface Emulator, and
decodes the emulator's JSON reply back into an HTTP response.

Strings that travel through the query-string parser are modelled at the byte
level (`List Nat`, each entry one octet), because the Rust code
(`url::form_urlencoded::parse`) operates on `&[u8]`.  Rust `HashMap`s are
modelled as association lists together with an insert operation that replaces
the previous binding of the key; iteration order of a Rust `HashMap` is
unspecified, so only the key→value mapping of the model is meaningful.
-/

set_option autoImplicit false

deriving instance DecidableEq for Except

namespace RIEGateway

/-- A byte string: each element is one octet (0 ≤ b < 256). -/
abbrev Bytes := List Nat

/-! ## HashMap model

`hmInsert` models `HashMap::insert`: the new binding replaces any previous
binding of the same key.  `hmCollect` models `Iterator::collect::<HashMap<_,_>>`,
which repeatedly inserts the produced pairs into an initially empty map, so a
later pair with the same key overwrites an earlier one.
-/

/-- Insert a binding, replacing any existing binding of the same key
(models `HashMap::insert`). -/
def hmInsert {K V : Type} [DecidableEq K] (m : List (K × V)) (k : K) (v : V) :
    List (K × V) :=
  (k, v) :: m.filter (fun p => decide (p.1 ≠ k))

/-- Look up the value bound to a key (models `HashMap::get`). -/
def hmLookup {K V : Type} [DecidableEq K] (m : List (K × V)) (k : K) : Option V :=
  (m.find? (fun p => decide (p.1 = k))).map (·.2)

/-- Collect a sequence of pairs into a map by repeated insertion
(models `collect::<HashMap<_,_>>()`). -/
def hmCollect {K V : Type} [DecidableEq K] (ps : List (K × V)) : List (K × V) :=
  ps.foldl (fun m p => hmInsert m p.1 p.2) []

theorem hmLookup_nil {K V : Type} [DecidableEq K] (k : K) :
    hmLookup ([] : List (K × V)) k = none := rfl

theorem find?_filter_of_imp {α : Type} (p q : α → Bool) (l : List α)
    (h : ∀ x, p x = true → q x = true) :
    (l.filter q).find? p = l.find? p := by
  induction l with
  | nil => rfl
  | cons a l ih =>
    by_cases hp : p a = true
    · have hq := h a hp
      simp [List.filter_cons, hq, List.find?_cons, hp]
    · have hp' : p a = false := by simpa using hp
      by_cases hq : q a = true
      · simp [List.filter_cons, hq, List.find?_cons, hp', ih]
      · have hq' : q a = false := by simpa using hq
        simp [List.filter_cons, hq', List.find?_cons, hp', ih]

theorem hmLookup_insert {K V : Type} [DecidableEq K]
    (m : List (K × V)) (k k' : K) (v : V) :
    hmLookup (hmInsert m k v) k' = if k' = k then some v else hmLookup m k' := by
  unfold hmLookup hmInsert
  by_cases h : k' = k
  · subst h
    simp [List.find?_cons]
  · have hne : ¬(k = k') := fun hk => h hk.symm
    rw [List.find?_cons]
    have : (decide ((k, v).1 = k')) = false := by simpa using hne
    rw [this]
    simp only [cond_false]
    have himp : ∀ x : K × V, (decide (x.1 = k')) = true → (decide (x.1 ≠ k)) = true := by
      intro x hx
      have hx' : x.1 = k' := by simpa using hx
      simp [hx', h]
    rw [find?_filter_of_imp _ _ _ himp]
    simp [h]

/-- Looking up a key in the collected map yields the value of the *last* pair
with that key (last-wins), i.e. the first match in the reversed pair list. -/
theorem hmLookup_foldl_insert {K V : Type} [DecidableEq K]
    (ps : List (K × V)) (m : List (K × V)) (k : K) :
    hmLookup (ps.foldl (fun m p => hmInsert m p.1 p.2) m) k =
      ((ps.reverse.find? (fun p => decide (p.1 = k))).map (·.2)).orElse
        (fun _ => hmLookup m k) := by
  induction ps generalizing m with
  | nil => simp
  | cons a ps ih =>
    rw [List.foldl_cons, ih, List.reverse_cons, List.find?_append]
    by_cases h : a.1 = k
    · cases hfind : ps.reverse.find? (fun p => decide (p.1 = k)) with
      | none => simp [hfind, List.find?_cons, h, hmLookup_insert, Option.orElse]
      | some q => simp [hfind, Option.orElse]
    · cases hfind : ps.reverse.find? (fun p => decide (p.1 = k)) with
      | none =>
        simp [hfind, List.find?_cons, h, hmLookup_insert, Option.orElse, Ne.symm h]
      | some q => simp [hfind, Option.orElse]

theorem hmLookup_collect {K V : Type} [DecidableEq K] (ps : List (K × V)) (k : K) :
    hmLookup (hmCollect ps) k =
      (ps.reverse.find? (fun p => decide (p.1 = k))).map (·.2) := by
  unfold hmCollect
  rw [hmLookup_foldl_insert]
  cases ps.reverse.find? (fun p => decide (p.1 = k)) <;> simp [Option.orElse, hmLookup]

/-! ## `application/x-www-form-urlencoded` parsing

Embeds `url::form_urlencoded::parse` as used by `extract_query_string`:
the input is split on `&` (byte 38), empty segments are skipped, each segment
is split at the first `=` (byte 61) into name and value (value empty when no
`=` is present), and name and value are decoded by replacing `+` (43) with a
space (32) and then percent-decoding.
-/

/-- Hexadecimal value of an ASCII byte (`char::to_digit(16)`), `none` when the
byte is not a hex digit. -/
def hexVal (b : Nat) : Option Nat :=
  if 48 ≤ b ∧ b ≤ 57 then some (b - 48)
  else if 65 ≤ b ∧ b ≤ 70 then some (b - 55)
  else if 97 ≤ b ∧ b ≤ 102 then some (b - 87)
  else none

/-- Replace `+` with a space (the `replace_plus` step of form-urlencoded
decoding). -/
def replacePlus (bs : Bytes) : Bytes :=
  bs.map (fun b => if b = 43 then 32 else b)

/-- Percent-decode a byte string: `%XY` with two hex digits becomes the byte
`0x16*X+Y`; a `%` not followed by two hex digits passes through literally. -/
def percentDecode : Bytes → Bytes
  | [] => []
  | 37 :: h :: l :: rest =>
    match hexVal h, hexVal l with
    | some hi, some lo => (16 * hi + lo) :: percentDecode rest
    | _, _ => 37 :: percentDecode (h :: l :: rest)
  | b :: rest => b :: percentDecode rest

/-- The full decode applied to each form-urlencoded name and value. -/
def formDecode (bs : Bytes) : Bytes :=
  percentDecode (replacePlus bs)

/-- Split a byte string on `&` (byte 38); standard split semantics, so empty
segments are produced (and filtered out by the parser below). -/
def splitOnAmp : Bytes → List Bytes
  | [] => [[]]
  | b :: rest =>
    if b = 38 then [] :: splitOnAmp rest
    else
      match splitOnAmp rest with
      | [] => [[b]]
      | s :: ss => (b :: s) :: ss

/-- Split a segment at the first `=` (byte 61): `(name, value)`, with the
value empty when no `=` occurs (`splitn(2, b on =)` semantics). -/
def splitFirstEq : Bytes → Bytes × Bytes
  | [] => ([], [])
  | b :: rest =>
    if b = 61 then ([], rest)
    else
      let (n, v) := splitFirstEq rest
      (b :: n, v)

/-- Embeds `url::form_urlencoded::parse`: the ordered list of decoded (name, value)
pairs of a query string.  Empty `&`-segments yield no pair. -/
def formUrlencodedParse (q : Bytes) : List (Bytes × Bytes) :=
  (splitOnAmp q).filterMap (fun seg =>
    if seg = [] then none
    else
      let (n, v) := splitFirstEq seg
      some (formDecode n, formDecode v))

example : formUrlencodedParse [105, 100, 61, 55] = [([105, 100], [55])] := by decide

example :
    formUrlencodedParse
        ([97, 61, 49, 38, 98, 61, 50, 38, 97, 61, 51] : Bytes) =
      [([97], [49]), ([98], [50]), ([97], [51])] := by decide

example : formUrlencodedParse ([] : Bytes) = [] := by decide

example : formUrlencodedParse [97, 43, 98, 61, 37, 52, 49] = [([97, 32, 98], [65])] := by
  decide

/-! ## Inbound request model and `extract_query_string` -/

/-- An inbound HTTP request as seen by `handle`, after the body stream has been
concatenated: canonical method string, URI path, optional raw query component,
the header sequence (name, raw value bytes) in iteration order, and the body
bytes. -/
structure InRequest where
  method : String
  path : String
  query : Option Bytes
  headers : List (String × Bytes)
  body : Bytes

/-- Embeds `extract_query_string`: parse the raw query (when present) into a map with
last-wins collection; an absent query yields `HashMap::new()`.  The error type
mirrors Rust's uninhabited `Infallible`. -/
def extract_query_string (req : InRequest) : Except Empty (List (Bytes × Bytes)) :=
  match req.query with
  | some q => .ok (hmCollect (formUrlencodedParse q))
  | none => .ok []

/-! ## Header extraction -/

/-- Visible-ASCII test of `http::HeaderValue::to_str`: a header value converts
to `&str` only when every byte is in 32..126 or is a horizontal tab (9). -/
def isVisibleAscii (b : Nat) : Bool :=
  (32 ≤ b && b < 127) || b = 9

/-- Interpret a list of ASCII bytes as a string (one character per byte). -/
def bytesToAsciiString (bs : Bytes) : String :=
  String.mk (bs.map Char.ofNat)

/-- Models `HeaderValue::to_str`: `some` of the text when every byte is visible
ASCII (or tab), otherwise `none`. -/
def headerValueToStr (v : Bytes) : Option String :=
  if v.all isVisibleAscii then some (bytesToAsciiString v) else none

/-- Embeds `extract_headers`: iterate the request's headers in order and insert
`(name, value.to_str().unwrap_or(""))` into a fresh map.  A value that cannot
be decoded as text degrades to the empty string; the function itself cannot
fail (`Infallible` error type, modelled by `Empty`). -/
def extract_headers (req : InRequest) : Except Empty (List (String × String)) :=
  .ok (req.headers.foldl
    (fun m p => hmInsert m p.1 ((headerValueToStr p.2).getD "")) [])

/-! ## Base64 encoding of the request body (`base64::encode`) -/

/-- The standard base64 alphabet. -/
def base64Chars : List Char :=
  "ABCDEFGHIJKLMNOPQRSTUVWXYZabcdefghijklmnopqrstuvwxyz0123456789+/".toList

/-- The base64 digit for a 6-bit value. -/
def base64Digit (n : Nat) : Char := base64Chars.getD n 'A'

/-- Standard base64 encoding with `=` padding, 3 input bytes per 4 output
characters. -/
def base64EncodeChars : Bytes → List Char
  | [] => []
  | [b1] =>
    [base64Digit (b1 / 4), base64Digit (b1 % 4 * 16), '=', '=']
  | [b1, b2] =>
    [base64Digit (b1 / 4), base64Digit (b1 % 4 * 16 + b2 / 16),
     base64Digit (b2 % 16 * 4), '=']
  | b1 :: b2 :: b3 :: rest =>
    base64Digit (b1 / 4) :: base64Digit (b1 % 4 * 16 + b2 / 16) ::
      base64Digit (b2 % 16 * 4 + b3 / 64) :: base64Digit (b3 % 64) ::
        base64EncodeChars rest

/-- Models `base64::encode` on the body bytes. -/
def base64Encode (bs : Bytes) : String :=
  String.mk (base64EncodeChars bs)

example : base64Encode [104, 101, 108, 108, 111] = "aGVsbG8=" := by decide

example : base64Encode [104, 105] = "aGk=" := by decide

example : base64Encode [] = "" := by decide

/-! ## The invocation envelope (`ApiGatewayV2LambdaProxyIntegrationV2`) -/

/-- Embeds `ApiGatewayV2LambdaProxyIntegrationV2RequestContext`. -/
structure LambdaRequestContext where
  http_method : String
  resource_path : String
  stage : String
deriving Repr, DecidableEq

/-- Embeds `ApiGatewayV2LambdaProxyIntegrationV2`: the event envelope sent upstream.
Query keys/values stay at the byte level (see module comment). -/
structure LambdaEnvelope where
  http_method : String
  resource : String
  path : String
  headers : Option (List (String × String))
  query_string_parameters : Option (List (Bytes × Bytes))
  path_parameters : Option (List (String × String))
  stage_variables : Option (List (String × String))
  multi_value_headers : Option (List (String × String))
  body : Option String
  is_base64_encoded : Bool
  request_context : LambdaRequestContext
deriving Repr, DecidableEq

/-- The envelope `handle` builds from an inbound request (the `payload`
struct literal in `handle`): `format!("{}", method)` is the canonical method
string (`req.method`), `uri.path()` the path, both extraction helpers are
converted with `.ok()`, the body is base64-encoded only when non-empty, and
`is_base64_encoded` is hard-coded `false`, `resource` to `"/"`, and the stage
to `"staging"`. -/
def buildPayload (req : InRequest) : LambdaEnvelope :=
  { resource := "/"
    http_method := req.method
    path := req.path
    headers := (extract_headers req).toOption
    query_string_parameters := (extract_query_string req).toOption
    stage_variables := none
    multi_value_headers := none
    path_parameters := none
    body := if req.body.isEmpty then none else some (base64Encode req.body)
    is_base64_encoded := false
    request_context :=
      { http_method := req.method
        resource_path := req.path
        stage := "staging" } }

/-! ## JSON values

A JSON value as produced/consumed by `serde_json` without the
arbitrary-precision feature: a number literal is either integral (parsed into
`u64`/`i64`) or floating (it had a fraction/exponent, or did not fit those
integer types), recorded by the `isFloat` flag.  `u16` deserialization
succeeds only on an integral number in `0..=65535`.
-/

/-- A JSON value; `num n isFloat` is a number literal with integral value `n`
when `isFloat = false`, and a floating-point literal otherwise. -/
inductive Json where
  | null
  | bool (b : Bool)
  | num (n : Int) (isFloat : Bool)
  | str (s : String)
  | arr (elems : List Json)
  | obj (fields : List (String × Json))

/-- Serialize an `Option` the way `serde` does: `None` becomes JSON `null`. -/
def optJson {α : Type} (f : α → Json) : Option α → Json
  | none => .null
  | some a => f a

/-- Serialize a string map as a JSON object. -/
def strMapJson (m : List (String × String)) : Json :=
  .obj (m.map (fun p => (p.1, .str p.2)))

/-- Serialize the byte-level query map as a JSON object (one character per
byte, the identity on ASCII). -/
def bytesMapJson (m : List (Bytes × Bytes)) : Json :=
  .obj (m.map (fun p => (bytesToAsciiString p.1, .str (bytesToAsciiString p.2))))

/-- Models `serde_json::to_*` on `ApiGatewayV2LambdaProxyIntegrationV2`:
fields in declaration order, camelCase renaming, `None` serialized as
`null`. -/
def serializeEnvelope (e : LambdaEnvelope) : Json :=
  .obj
    [("httpMethod", .str e.http_method),
     ("resource", .str e.resource),
     ("path", .str e.path),
     ("headers", optJson strMapJson e.headers),
     ("queryStringParameters", optJson bytesMapJson e.query_string_parameters),
     ("pathParameters", optJson strMapJson e.path_parameters),
     ("stageVariables", optJson strMapJson e.stage_variables),
     ("multiValueHeaders", optJson strMapJson e.multi_value_headers),
     ("body", optJson Json.str e.body),
     ("isBase64Encoded", .bool e.is_base64_encoded),
     ("requestContext",
       .obj
         [("httpMethod", .str e.request_context.http_method),
          ("resourcePath", .str e.request_context.resource_path),
          ("stage", .str e.request_context.stage)])]

/-! ## Deserialization of the upstream reply (`ApiGatewayV2LambdaResponseV1`) -/

/-- Embeds `ApiGatewayV2LambdaResponseV1`: every field optional; `statusCode`
is a `u16`, modelled as a `Nat` that deserializes only from `0..=65535`. -/
structure LambdaResponse where
  is_base64_encoded : Option Bool
  status_code : Option Nat
  headers : Option (List (String × String))
  body : Option String
deriving Repr, DecidableEq

/-- Deserialize `Option<bool>`: `null` is `None`, a boolean is `Some`,
anything else is a type error. -/
def deserOptBool : Json → Except String (Option Bool)
  | .null => .ok none
  | .bool b => .ok (some b)
  | _ => .error "invalid type: expected a boolean"

/-- Deserialize `Option<u16>`: `null` is `None`; an integral number in
`0..=65535` is `Some`; a floating number is a type error and an out-of-range
integer is a value error. -/
def deserOptU16 : Json → Except String (Option Nat)
  | .null => .ok none
  | .num n isFloat =>
    if isFloat then .error "invalid type: floating point number"
    else if 0 ≤ n ∧ n ≤ 65535 then .ok (some n.toNat)
    else .error "invalid value: integer out of range for u16"
  | _ => .error "invalid type: expected u16"

/-- Deserialize the entries of a JSON object into a `HashMap<String, String>`:
every value must be a string; duplicate keys overwrite (last wins). -/
def deserStrMapFields (fs : List (String × Json)) :
    Except String (List (String × String)) :=
  fs.foldlM
    (fun m kv =>
      match kv.2 with
      | .str s => .ok (hmInsert m kv.1 s)
      | _ => .error "invalid type: expected a string value")
    []

/-- Deserialize `Option<HashMap<String, String>>`. -/
def deserOptStrMap : Json → Except String (Option (List (String × String)))
  | .null => .ok none
  | .obj fs => (deserStrMapFields fs).map some
  | _ => .error "invalid type: expected a map"

/-- Deserialize `Option<String>`. -/
def deserOptString : Json → Except String (Option String)
  | .null => .ok none
  | .str s => .ok (some s)
  | _ => .error "invalid type: expected a string"

/-- Intermediate state of the struct deserializer: each slot is `some x` once
its field has been seen (holding the deserialized `Option` value `x`). -/
structure DeserState where
  is_base64_encoded : Option (Option Bool) := none
  status_code : Option (Option Nat) := none
  headers : Option (Option (List (String × String))) := none
  body : Option (Option String) := none

/-- Process one key/value entry of the JSON object: a known field is
deserialized into its slot (a second occurrence is a duplicate-field error);
an unknown field is ignored (`serde` default). -/
def deserField (st : DeserState) (kv : String × Json) : Except String DeserState :=
  if kv.1 = "isBase64Encoded" then
    match st.is_base64_encoded with
    | some _ => .error "duplicate field isBase64Encoded"
    | none => (deserOptBool kv.2).map (fun x => { st with is_base64_encoded := some x })
  else if kv.1 = "statusCode" then
    match st.status_code with
    | some _ => .error "duplicate field statusCode"
    | none => (deserOptU16 kv.2).map (fun x => { st with status_code := some x })
  else if kv.1 = "headers" then
    match st.headers with
    | some _ => .error "duplicate field headers"
    | none => (deserOptStrMap kv.2).map (fun x => { st with headers := some x })
  else if kv.1 = "body" then
    match st.body with
    | some _ => .error "duplicate field body"
    | none => (deserOptString kv.2).map (fun x => { st with body := some x })
  else .ok st

/-- Models `serde_json` deserialization into `ApiGatewayV2LambdaResponseV1`:
the value must be a JSON object; its entries are processed in order; a missing
`Option` field defaults to `None` (also the `#[serde(default)]` on
`headers`). -/
def deserializeResponse : Json → Except String LambdaResponse
  | .obj fields =>
    match fields.foldlM deserField {} with
    | .error e => .error e
    | .ok st =>
      .ok
        { is_base64_encoded := st.is_base64_encoded.getD none
          status_code := st.status_code.getD none
          headers := st.headers.getD none
          body := st.body.getD none }
  | _ => .error "invalid type: expected struct ApiGatewayV2LambdaResponseV1"

/-! ## Building the outbound HTTP response -/

/-- Token characters accepted by `http::HeaderName::from_bytes`: ASCII
alphanumerics plus the token symbols (codes 39 and 96 are the apostrophe and
the backquote). -/
def isHeaderNameChar (c : Char) : Bool :=
  c.isAlphanum ||
    c ∈ ['!', '#', '$', '%', '&', Char.ofNat 39, '*', '+', '-', '.', '^', '_',
         Char.ofNat 96, '|', '~']

/-- Validity of a header name for `builder.header(k.as_bytes(), ..)`: the
byte string must be non-empty and consist of token characters. -/
def validHeaderName (s : String) : Bool :=
  !s.isEmpty && s.toList.all isHeaderNameChar

/-- Character accepted by `http::HeaderValue::from_str`: horizontal tab, or
any character other than the ASCII controls and delete (multi-byte UTF-8
characters only contribute bytes ≥ 128, which are accepted). -/
def isHeaderValueChar (c : Char) : Bool :=
  c.toNat = 9 || (32 ≤ c.toNat && c.toNat != 127)

/-- Validity of a header value for `builder.header(.., v.as_str())`. -/
def validHeaderValue (s : String) : Bool :=
  s.toList.all isHeaderValueChar

/-- Models `hyper::StatusCode::from_u16`, which accepts only `100..=999`. -/
def validStatusCode (n : Nat) : Bool :=
  100 ≤ n && n ≤ 999

/-- The outbound HTTP response: status, header list (in insertion order,
names lowercased as `HeaderName` does), and body. -/
structure OutResponse where
  status : Nat
  headers : List (String × String)
  body : String
deriving Repr, DecidableEq

/-- ASCII lowercasing of one character, as `HeaderName` parsing applies to
the header-name bytes. -/
def lowerAsciiChar (c : Char) : Char :=
  if 65 ≤ c.toNat && c.toNat ≤ 90 then Char.ofNat (c.toNat + 32) else c

/-- ASCII lowercasing of a header name (a parsed `HeaderName` is stored in
lowercase). -/
def lowerAscii (s : String) : String :=
  String.mk (s.toList.map lowerAsciiChar)

/-- Apply `builder.header(k.as_bytes(), v.as_str())` for every map entry:
an invalid name or value is recorded as an error that surfaces when the
response is finalized, so the build fails iff any entry is invalid. -/
def buildHeaderList : List (String × String) → Except String (List (String × String))
  | [] => .ok []
  | (k, v) :: rest =>
    if validHeaderName k && validHeaderValue v then
      (buildHeaderList rest).map (fun hs => (lowerAscii k, v) :: hs)
    else .error "invalid header"

/-- Embeds the response-building tail of `handle`: status from
`status_code.unwrap_or(500)` (checked by `StatusCode::from_u16`), each header
entry set verbatim, body from `body.unwrap_or(String::new())` with no base64
decoding. -/
def buildResponse (r : LambdaResponse) : Except String OutResponse :=
  if validStatusCode (r.status_code.getD 500) then
    match buildHeaderList (r.headers.getD []) with
    | .error e => .error e
    | .ok hs =>
      .ok { status := r.status_code.getD 500, headers := hs, body := r.body.getD "" }
  else .error "invalid status code"

/-! ## The request handler -/

/-- One HTTP request issued to the upstream emulator. -/
structure UpstreamRequest where
  method : String
  url : String
  json_body : Json

/-- Outcome of the single upstream exchange, as observed by `handle`:
a transport error from `send()`, a reply whose bytes are not valid JSON
(`resp.json()` fails before typed deserialization), or a parsed JSON value. -/
inductive UpstreamOutcome where
  | transportError
  | malformedJson
  | json (j : Json)

/-- Error cases with which `handle` returns `Err` (all collapse into
`anyhow::Error` in the Rust code). -/
inductive HandleError where
  | transport
  | responseParse (msg : String)
  | responseBuild (msg : String)
deriving Repr, DecidableEq

/-- Fixed invocation path appended to the target base URL. -/
def invocationsPath : String := "/2015-03-31/functions/function/invocations"

/-- Embeds `handle`: build the payload from the request, issue exactly one
POST of the JSON-serialized payload to
`{target_url}/2015-03-31/functions/function/invocations`, then decode the
upstream reply and build the outbound response.  The first component is the
trace of upstream requests issued (always that single POST — on any failure
the `?` operator propagates the error with no retry). -/
def handle (target_url : String) (req : InRequest)
    (upstream : UpstreamRequest → UpstreamOutcome) :
    List UpstreamRequest × Except HandleError OutResponse :=
  let ureq : UpstreamRequest :=
    { method := "POST"
      url := target_url ++ invocationsPath
      json_body := serializeEnvelope (buildPayload req) }
  ([ureq],
    match upstream ureq with
    | .transportError => .error .transport
    | .malformedJson => .error (.responseParse "error decoding response body")
    | .json j =>
      match deserializeResponse j with
      | .error e => .error (.responseParse e)
      | .ok r =>
        match buildResponse r with
        | .error e => .error (.responseBuild e)
        | .ok resp => .ok resp)

/-! ## Sanity checks on concrete values -/

example :
    deserializeResponse (.obj []) = .ok ⟨none, none, none, none⟩ := rfl

example :
    deserializeResponse
        (.obj [("statusCode", .num 201 false),
               ("headers", .obj [("X-Id", .str "42")]),
               ("body", .str "ok")]) =
      .ok ⟨none, some 201, some [("X-Id", "42")], some "ok"⟩ := rfl

example :
    buildResponse ⟨none, some 201, some [("X-Id", "42")], some "ok"⟩ =
      .ok ⟨201, [("x-id", "42")], "ok"⟩ := rfl

example : (deserializeResponse (.obj [("statusCode", .num 201 true)])).isOk = false := by
  decide

example : (deserializeResponse (.str "nope")).isOk = false := by decide

/-! ## Helper lemmas -/

theorem extract_headers_eq (req : InRequest) :
    extract_headers req =
      .ok (hmCollect
        (req.headers.map (fun p => (p.1, (headerValueToStr p.2).getD "")))) := by
  unfold extract_headers hmCollect
  rw [List.foldl_map]

theorem buildHeaderList_not_ok_of_invalid_value
    (m : List (String × String)) (k v : String)
    (hmem : (k, v) ∈ m) (hv : validHeaderValue v = false) :
    (buildHeaderList m).isOk = false := by
  induction m with
  | nil => cases hmem
  | cons a rest ih =>
    obtain ⟨ak, av⟩ := a
    rcases List.mem_cons.mp hmem with heq | hmem2
    · obtain ⟨hk, hvv⟩ := Prod.mk.injEq .. ▸ heq.symm
      subst hk
      subst hvv
      simp [buildHeaderList, hv, Except.isOk, Except.toBool]
    · by_cases hc : (validHeaderName ak && validHeaderValue av) = true
      · have ihh := ih hmem2
        cases hb : buildHeaderList rest with
        | error e => simp [buildHeaderList, hc, hb, Except.map, Except.isOk, Except.toBool]
        | ok hs => rw [hb] at ihh; cases ihh
      · have hc' : (validHeaderName ak && validHeaderValue av) = false := by
          simpa using hc
        simp [buildHeaderList, hc', Except.isOk, Except.toBool]

theorem buildResponse_ok_fields (r : LambdaResponse) (o : OutResponse)
    (h : buildResponse r = .ok o) :
    o.status = r.status_code.getD 500 ∧
    o.body = r.body.getD "" ∧
    (r.headers = none → o.headers = []) := by
  unfold buildResponse at h
  by_cases hv : validStatusCode (r.status_code.getD 500) = true
  · rw [if_pos hv] at h
    cases hb : buildHeaderList (r.headers.getD []) with
    | error e => rw [hb] at h; cases h
    | ok hs =>
      rw [hb] at h
      cases h
      refine ⟨rfl, rfl, fun hn => ?_⟩
      rw [hn] at hb
      have : (Except.ok [] : Except String (List (String × String))) = .ok hs := hb
      cases this
      rfl
  · rw [if_neg hv] at h
    cases h

theorem buildResponse_not_ok_of_invalid_value (r : LambdaResponse)
    (m : List (String × String)) (k v : String)
    (hh : r.headers = some m) (hmem : (k, v) ∈ m)
    (hv : validHeaderValue v = false) :
    (buildResponse r).isOk = false := by
  unfold buildResponse
  rw [hh]
  have hb := buildHeaderList_not_ok_of_invalid_value m k v hmem hv
  by_cases hs : validStatusCode (r.status_code.getD 500) = true
  · rw [if_pos hs]
    cases hbl : buildHeaderList (Option.getD (some m) []) with
    | error e => rfl
    | ok l =>
      rw [show Option.getD (some m) [] = m from rfl] at hbl
      rw [hbl] at hb
      cases hb
  · rw [if_neg hs]
    rfl

theorem deserField_ok_known (st st' : DeserState) (k : String) (v : Json)
    (h : deserField st (k, v) = .ok st') :
    (k = "isBase64Encoded" → (deserOptBool v).isOk = true) ∧
    (k = "statusCode" → (deserOptU16 v).isOk = true) ∧
    (k = "headers" → (deserOptStrMap v).isOk = true) ∧
    (k = "body" → (deserOptString v).isOk = true) := by
  refine ⟨?_, ?_, ?_, ?_⟩ <;> intro hk <;> subst hk <;> simp [deserField] at h
  · cases hoc : st.is_base64_encoded with
    | some x => rw [hoc] at h; cases h
    | none =>
      rw [hoc] at h
      cases hd : deserOptBool v with
      | error e => rw [hd] at h; cases h
      | ok x => rfl
  · cases hoc : st.status_code with
    | some x => rw [hoc] at h; cases h
    | none =>
      rw [hoc] at h
      cases hd : deserOptU16 v with
      | error e => rw [hd] at h; cases h
      | ok x => rfl
  · cases hoc : st.headers with
    | some x => rw [hoc] at h; cases h
    | none =>
      rw [hoc] at h
      cases hd : deserOptStrMap v with
      | error e => rw [hd] at h; cases h
      | ok x => rfl
  · cases hoc : st.body with
    | some x => rw [hoc] at h; cases h
    | none =>
      rw [hoc] at h
      cases hd : deserOptString v with
      | error e => rw [hd] at h; cases h
      | ok x => rfl

theorem deserFields_field_ok (fields : List (String × Json)) :
    ∀ st st' : DeserState, fields.foldlM deserField st = .ok st' →
    ∀ k v, (k, v) ∈ fields →
      (k = "isBase64Encoded" → (deserOptBool v).isOk = true) ∧
      (k = "statusCode" → (deserOptU16 v).isOk = true) ∧
      (k = "headers" → (deserOptStrMap v).isOk = true) ∧
      (k = "body" → (deserOptString v).isOk = true) := by
  induction fields with
  | nil =>
    intro st st' _ k v hmem
    cases hmem
  | cons a rest ih =>
    intro st st' h k v hmem
    rw [List.foldlM_cons] at h
    cases hf : deserField st a with
    | error e => rw [hf] at h; cases h
    | ok st1 =>
      rw [hf] at h
      have h' : rest.foldlM deserField st1 = .ok st' := h
      rcases List.mem_cons.mp hmem with heq | hmem2
      · exact deserField_ok_known st st1 k v (heq ▸ hf)
      · exact ih st1 st' h' k v hmem2

theorem deserializeResponse_not_ok_of_field
    (fields : List (String × Json)) (k : String) (v : Json)
    (hmem : (k, v) ∈ fields)
    (hbad : (k = "isBase64Encoded" ∧ (deserOptBool v).isOk = false) ∨
            (k = "statusCode" ∧ (deserOptU16 v).isOk = false) ∨
            (k = "headers" ∧ (deserOptStrMap v).isOk = false) ∨
            (k = "body" ∧ (deserOptString v).isOk = false)) :
    (deserializeResponse (.obj fields)).isOk = false := by
  cases hf : fields.foldlM deserField ({} : DeserState) with
  | error e => simp [deserializeResponse, hf, Except.isOk, Except.toBool]
  | ok st =>
    exfalso
    have h4 := deserFields_field_ok fields _ _ hf k v hmem
    rcases hbad with ⟨hk, hb⟩ | ⟨hk, hb⟩ | ⟨hk, hb⟩ | ⟨hk, hb⟩
    · rw [h4.1 hk] at hb; cases hb
    · rw [h4.2.1 hk] at hb; cases hb
    · rw [h4.2.2.1 hk] at hb; cases hb
    · rw [h4.2.2.2 hk] at hb; cases hb

theorem handle_error_of_deserialize_not_ok (t : String) (req : InRequest) (j : Json)
    (h : (deserializeResponse j).isOk = false) :
    ((handle t req (fun _ => .json j)).2).isOk = false := by
  show (match deserializeResponse j with
    | .error e => (.error (.responseParse e) : Except HandleError OutResponse)
    | .ok r =>
      match buildResponse r with
      | .error e => .error (.responseBuild e)
      | .ok resp => .ok resp).isOk = false
  cases hd : deserializeResponse j with
  | error e => rfl
  | ok r => rw [hd] at h; cases h

/-! ## Claims -/

/-- C1 (counterexample): for a request whose URI has no query component the
claim says `queryStringParameters` is absent (`None`); the code instead
produces `Some` of the empty mapping (`extract_query_string` returns
`Ok(HashMap::new())` and `.ok()` turns that into `Some`). -/
theorem C1_counterexample :
    ({ method := "GET", path := "/", query := none, headers := [], body := [] } : InRequest).query = none ∧
    (buildPayload { method := "GET", path := "/", query := none, headers := [], body := [] }).query_string_parameters ≠ none ∧
    (buildPayload { method := "GET", path := "/", query := none, headers := [], body := [] }).query_string_parameters = some [] := by
  decide

/-- C1 (amended): for every inbound request the envelope's
`queryStringParameters` field is always present: it equals the empty mapping
when the URI has no query component, and otherwise the mapping obtained by
parsing the query string as `application/x-www-form-urlencoded` pairs,
percent-decoded, where for duplicate keys the last value wins (the lookup of
any key is the value of the last pair carrying that key). -/
theorem C1_queryStringParameters (req : InRequest) :
    (req.query = none → (buildPayload req).query_string_parameters = some []) ∧
    (∀ q, req.query = some q →
      (buildPayload req).query_string_parameters =
        some (hmCollect (formUrlencodedParse q)) ∧
      ∀ k, hmLookup (hmCollect (formUrlencodedParse q)) k =
        ((formUrlencodedParse q).reverse.find? (fun p => decide (p.1 = k))).map
          (·.2)) := by
  constructor
  · intro hq
    simp [buildPayload, extract_query_string, hq, Except.toOption]
  · intro q hq
    refine ⟨?_, fun k => hmLookup_collect _ k⟩
    simp [buildPayload, extract_query_string, hq, Except.toOption]

/-- Witness for C1: the query string `a=1&a=2` yields the mapping
`{a ↦ 2}` (last value wins), and it is present. -/
theorem C1_queryStringParameters_witness :
    (buildPayload { method := "GET", path := "/w", query := some [97, 61, 49, 38, 97, 61, 50], headers := [], body := [] }).query_string_parameters = some [([97], [50])] ∧
    hmLookup (hmCollect (formUrlencodedParse [97, 61, 49, 38, 97, 61, 50])) [97] =
      some [50] := by
  have h := (C1_queryStringParameters { method := "GET", path := "/w", query := some [97, 61, 49, 38, 97, 61, 50], headers := [], body := [] }).2 [97, 61, 49, 38, 97, 61, 50] rfl
  exact ⟨h.1.trans (by decide), (h.2 [97]).trans (by decide)⟩

/-- C2: a request with an empty body yields an envelope with `body` absent and
`isBase64Encoded = false`; a request with a non-empty body yields `body` equal
to the base64 encoding of the exact input bytes, with `isBase64Encoded` still
`false`. -/
theorem C2_body_encoding (req : InRequest) :
    (req.body = [] →
      (buildPayload req).body = none ∧
      (buildPayload req).is_base64_encoded = false) ∧
    (req.body ≠ [] →
      (buildPayload req).body = some (base64Encode req.body) ∧
      (buildPayload req).is_base64_encoded = false) := by
  constructor
  · intro hb
    have he : req.body.isEmpty = true := by rw [hb]; rfl
    exact ⟨by simp [buildPayload, he], rfl⟩
  · intro hb
    have hne : req.body.isEmpty = false := by
      cases hbody : req.body with
      | nil => exact absurd hbody hb
      | cons a l => rfl
    exact ⟨by simp [buildPayload, hne], rfl⟩

/-- Witness for C2 (Scenario B): body `hello` is encoded as `aGVsbG8=` with
`isBase64Encoded` still `false`. -/
theorem C2_body_encoding_witness :
    (buildPayload { method := "POST", path := "/submit", query := none, headers := [], body := [104, 101, 108, 108, 111] }).body = some "aGVsbG8=" ∧
    (buildPayload { method := "POST", path := "/submit", query := none, headers := [], body := [104, 101, 108, 108, 111] }).is_base64_encoded = false := by
  have h := (C2_body_encoding { method := "POST", path := "/submit", query := none, headers := [], body := [104, 101, 108, 108, 111] }).2 (by decide)
  exact ⟨h.1.trans (by decide), h.2⟩

/-- C5: for every inbound request `handle` performs exactly one upstream POST,
to the target base URL concatenated with
`/2015-03-31/functions/function/invocations`, with the JSON-serialized
invocation envelope as body — whatever the upstream outcome is (so no retry
on any failure). -/
theorem C5_single_post (target_url : String) (req : InRequest)
    (upstream : UpstreamRequest → UpstreamOutcome) :
    (handle target_url req upstream).1 =
      [{ method := "POST"
         url := target_url ++ "/2015-03-31/functions/function/invocations"
         json_body := serializeEnvelope (buildPayload req) }] := rfl

/-- C6: for every inbound request the envelope has `resource = "/"`, the fixed
stage literal `"staging"`, absent `pathParameters`, `stageVariables` and
`multiValueHeaders`, `path` and `requestContext.resourcePath` equal to the
URI path unmodified, and `httpMethod` (in both places) equal to the method's
canonical string form. -/
theorem C6_fixed_fields (req : InRequest) :
    (buildPayload req).resource = "/" ∧
    (buildPayload req).request_context.stage = "staging" ∧
    (buildPayload req).path_parameters = none ∧
    (buildPayload req).stage_variables = none ∧
    (buildPayload req).multi_value_headers = none ∧
    (buildPayload req).path = req.path ∧
    (buildPayload req).request_context.resource_path = req.path ∧
    (buildPayload req).http_method = req.method ∧
    (buildPayload req).request_context.http_method = req.method :=
  ⟨rfl, rfl, rfl, rfl, rfl, rfl, rfl, rfl, rfl⟩

/-- C9: both extraction helpers have the uninhabited error type `Infallible`
(modelled by `Empty`), so converting their results with `.ok()` can never
produce `None`: the envelope's `headers` and `queryStringParameters` fields
are always present. -/
theorem C9_always_some (req : InRequest) :
    ((extract_headers req).toOption).isSome = true ∧
    ((extract_query_string req).toOption).isSome = true ∧
    ((buildPayload req).headers).isSome = true ∧
    ((buildPayload req).query_string_parameters).isSome = true := by
  cases hq : req.query <;>
    simp [extract_headers, extract_query_string, buildPayload, hq, Except.toOption]

/-- C3: a missing `statusCode` defaults the outbound status to 500, a missing
`headers` field yields an outbound response with no extra headers, a missing
`body` yields an empty outbound body; in particular the upstream reply `{}`
decodes to the all-absent structure and builds to status 500, no headers,
empty body. -/
theorem C3_missing_field_defaults :
    deserializeResponse (.obj []) = .ok ⟨none, none, none, none⟩ ∧
    buildResponse ⟨none, none, none, none⟩ = .ok ⟨500, [], ""⟩ ∧
    (∀ (r : LambdaResponse) (o : OutResponse), buildResponse r = .ok o →
      (r.status_code = none → o.status = 500) ∧
      (r.headers = none → o.headers = []) ∧
      (r.body = none → o.body = "")) := by
  refine ⟨rfl, rfl, ?_⟩
  intro r o h
  obtain ⟨hs, hb, hh⟩ := buildResponse_ok_fields r o h
  exact ⟨fun hn => by rw [hs, hn]; rfl, hh, fun hn => by rw [hb, hn]; rfl⟩

/-- Witness for C3: a response with every defaultable field absent builds to
status 500, no headers, empty body. -/
theorem C3_missing_field_defaults_witness :
    buildResponse ⟨some true, none, none, none⟩ = .ok ⟨500, [], ""⟩ ∧
    (⟨500, [], ""⟩ : OutResponse).status = 500 ∧
    (⟨500, [], ""⟩ : OutResponse).headers = ([] : List (String × String)) ∧
    (⟨500, [], ""⟩ : OutResponse).body = "" := by
  have hb : buildResponse ⟨some true, none, none, none⟩ = .ok ⟨500, [], ""⟩ := by
    decide
  have h3 := (C3_missing_field_defaults).2.2 ⟨some true, none, none, none⟩
    ⟨500, [], ""⟩ hb
  exact ⟨hb, h3.1 rfl, h3.2.1 rfl, h3.2.2 rfl⟩

/-- C4: for every successfully decoded upstream response the outbound body is
the upstream body string written through verbatim (never base64-decoded), the
`isBase64Encoded` field has no effect on the built response, and it is
nevertheless parsed into the deserialized structure. -/
theorem C4_body_verbatim :
    (∀ (r : LambdaResponse) (o : OutResponse), buildResponse r = .ok o →
      o.body = r.body.getD "") ∧
    (∀ (r : LambdaResponse) (b : Option Bool),
      buildResponse { r with is_base64_encoded := b } = buildResponse r) ∧
    deserializeResponse
        (.obj [("isBase64Encoded", .bool true), ("body", .str "aGVsbG8=")]) =
      .ok ⟨some true, none, none, some "aGVsbG8="⟩ ∧
    buildResponse ⟨some true, none, none, some "aGVsbG8="⟩ =
      .ok ⟨500, [], "aGVsbG8="⟩ := by
  refine ⟨?_, ?_, rfl, rfl⟩
  · intro r o h
    exact (buildResponse_ok_fields r o h).2.1
  · intro r b
    rfl

/-- Witness for C4: a body flagged as base64 is written through verbatim, and
flipping the flag does not change the built response. -/
theorem C4_body_verbatim_witness :
    (⟨500, [], "aGVsbG8="⟩ : OutResponse).body = "aGVsbG8=" ∧
    buildResponse ⟨some false, none, none, some "aGVsbG8="⟩ =
      buildResponse ⟨none, none, none, some "aGVsbG8="⟩ := by
  constructor
  · exact (C4_body_verbatim.1 ⟨some true, none, none, some "aGVsbG8="⟩
      ⟨500, [], "aGVsbG8="⟩ (by decide)).trans (by decide)
  · exact C4_body_verbatim.2.1 ⟨none, none, none, some "aGVsbG8="⟩ (some false)

/-- C7: an inbound header value that cannot be decoded as text degrades to the
empty string without failing the request, while an upstream header value with
characters illegal in outbound HTTP framing makes the whole request fail. -/
theorem C7_header_value_asymmetry :
    (∀ (req : InRequest) (n : String) (v : Bytes),
      req.headers.reverse.find? (fun p => decide (p.1 = n)) = some (n, v) →
      headerValueToStr v = none →
      ∃ m, extract_headers req = .ok m ∧ hmLookup m n = some "") ∧
    (∀ (t : String) (req : InRequest) (j : Json) (r : LambdaResponse)
        (m : List (String × String)) (k v : String),
      deserializeResponse j = .ok r → r.headers = some m → (k, v) ∈ m →
      validHeaderValue v = false →
      ((handle t req (fun _ => .json j)).2).isOk = false) := by
  constructor
  · intro req n v hfind htos
    refine ⟨_, extract_headers_eq req, ?_⟩
    rw [hmLookup_collect]
    have hrev :
        (req.headers.map (fun p => (p.1, (headerValueToStr p.2).getD ""))).reverse =
          req.headers.reverse.map (fun p => (p.1, (headerValueToStr p.2).getD "")) :=
      (List.map_reverse _ _).symm
    rw [hrev, List.find?_map]
    have hpred :
        ((fun p : String × String => decide (p.1 = n)) ∘
            (fun p : String × Bytes => (p.1, (headerValueToStr p.2).getD ""))) =
          (fun p : String × Bytes => decide (p.1 = n)) := rfl
    rw [hpred, hfind]
    simp [htos]
  · intro t req j r m k v hdes hh hmem hv
    show (match deserializeResponse j with
      | .error e => (.error (.responseParse e) : Except HandleError OutResponse)
      | .ok r' =>
        match buildResponse r' with
        | .error e => .error (.responseBuild e)
        | .ok resp => .ok resp).isOk = false
    rw [hdes]
    have hbr := buildResponse_not_ok_of_invalid_value r m k v hh hmem hv
    show (match buildResponse r with
      | .error e => (.error (.responseBuild e) : Except HandleError OutResponse)
      | .ok resp => .ok resp).isOk = false
    cases hb : buildResponse r with
    | error e => rfl
    | ok o => rw [hb] at hbr; cases hbr

/-- Witness for C7: byte 255 in an inbound header value degrades to the empty
string; a line feed in an upstream header value fails the request. -/
theorem C7_header_value_asymmetry_witness :
    (∃ m, extract_headers { method := "GET", path := "/", query := none, headers := [("x-raw", [255])], body := [] } = .ok m ∧ hmLookup m "x-raw" = some "") ∧
    ((handle "http://t" { method := "GET", path := "/", query := none, headers := [], body := [] } (fun _ => .json (.obj [("headers", .obj [("x", .str "\n")])]))).2).isOk = false := by
  constructor
  · exact C7_header_value_asymmetry.1 _ "x-raw" [255] (by decide) (by decide)
  · exact C7_header_value_asymmetry.2 "http://t" _ _
      ⟨none, none, some [("x", "\n")], none⟩ [("x", "\n")] "x" "\n"
      (by decide) rfl (List.mem_cons_self _ _) (by decide)

/-- C8: a structurally invalid upstream body is a hard per-request failure:
when the reply bytes are not valid JSON, and when a present known field has a
value of the wrong type, `handle` returns an error rather than an HTTP
response built from partial data. -/
theorem C8_malformed_response_hard_failure :
    (∀ (t : String) (req : InRequest),
      ((handle t req (fun _ => .malformedJson)).2).isOk = false) ∧
    (∀ (t : String) (req : InRequest) (j : Json),
      (deserializeResponse j).isOk = false →
      ((handle t req (fun _ => .json j)).2).isOk = false) ∧
    (∀ (fields : List (String × Json)) (k : String) (v : Json), (k, v) ∈ fields →
      ((k = "isBase64Encoded" ∧ (deserOptBool v).isOk = false) ∨
       (k = "statusCode" ∧ (deserOptU16 v).isOk = false) ∨
       (k = "headers" ∧ (deserOptStrMap v).isOk = false) ∨
       (k = "body" ∧ (deserOptString v).isOk = false)) →
      (deserializeResponse (.obj fields)).isOk = false) := by
  refine ⟨?_, ?_, ?_⟩
  · intro t req
    rfl
  · exact handle_error_of_deserialize_not_ok
  · exact deserializeResponse_not_ok_of_field

/-- Witness for C8: a reply that is not JSON fails the request, and so does a
reply whose `body` field holds a number instead of a string. -/
theorem C8_malformed_response_hard_failure_witness :
    ((handle "http://t" ⟨"GET", "/", none, [], []⟩ (fun _ => .malformedJson)).2).isOk = false ∧
    ((handle "http://t" ⟨"GET", "/", none, [], []⟩ (fun _ => .json (.obj [("body", .num 3 false)]))).2).isOk = false := by
  constructor
  · exact C8_malformed_response_hard_failure.1 "http://t" _
  · exact C8_malformed_response_hard_failure.2.1 "http://t" _ _
      (C8_malformed_response_hard_failure.2.2 [("body", .num 3 false)] "body"
        (.num 3 false) (List.mem_cons_self _ _)
        (.inr (.inr (.inr ⟨rfl, by decide⟩))))

/-- C10: an upstream reply whose `statusCode` is present but not an integer
representable as an unsigned 16-bit value (floating, negative, or greater
than 65535) fails deserialization, so `handle` fails for that request even
when all other fields are well-formed. -/
theorem C10_statusCode_range (fields : List (String × Json)) (n : Int)
    (isFloat : Bool)
    (hmem : ("statusCode", Json.num n isFloat) ∈ fields)
    (hbad : isFloat = true ∨ n < 0 ∨ 65535 < n) :
    (deserializeResponse (.obj fields)).isOk = false ∧
    ∀ (t : String) (req : InRequest),
      ((handle t req (fun _ => .json (.obj fields))).2).isOk = false := by
  have hdU16 : (deserOptU16 (Json.num n isFloat)).isOk = false := by
    cases isFloat with
    | true => rfl
    | false =>
      rcases hbad with hf | hneg | hlarge
      · cases hf
      · have hnot : ¬(0 ≤ n ∧ n ≤ 65535) := fun hc => absurd hneg (not_lt.mpr hc.1)
        simp [deserOptU16, hnot, Except.isOk, Except.toBool]
      · have hnot : ¬(0 ≤ n ∧ n ≤ 65535) := fun hc => absurd hlarge (not_lt.mpr hc.2)
        simp [deserOptU16, hnot, Except.isOk, Except.toBool]
  have hd := deserializeResponse_not_ok_of_field fields "statusCode"
    (Json.num n isFloat) hmem (.inr (.inl ⟨rfl, hdU16⟩))
  exact ⟨hd, fun t req => handle_error_of_deserialize_not_ok t req _ hd⟩

/-- Witness for C10: `statusCode = 70000` (with a well-formed `body`) fails
deserialization and fails the request. -/
theorem C10_statusCode_range_witness :
    (deserializeResponse (.obj [("statusCode", Json.num 70000 false), ("body", .str "ok")])).isOk = false ∧
    ((handle "http://t" ⟨"GET", "/", none, [], []⟩ (fun _ => .json (.obj [("statusCode", Json.num 70000 false), ("body", .str "ok")]))).2).isOk = false := by
  have h := C10_statusCode_range
    [("statusCode", Json.num 70000 false), ("body", .str "ok")] 70000 false
    (List.mem_cons_self _ _) (.inr (.inr (by norm_num)))
  exact ⟨h.1, h.2 "http://t" _⟩

end RIEGateway
